import Mathlib

/- Shallow embedding of the picklist-to-quotation converter
   (src/app/converter.py, src/app/database.py, src/app/poller.py).

   The three relational backends (shipper, backoffice, inventory) and the
   SQLite ledger are modelled as in-memory values; each Python method that
   reads or writes a backend becomes a pure Lean function from the old state
   to a result together with the new state.  Rows of the two product
   catalogs are ordered field-name/value mappings so that the dynamic
   column-intersection insert of copy_products_from_inventory can be
   expressed exactly.  Connection plumbing (hosts, ports, credentials) is
   outside the model: a configuration either exists or it does not, and
   carries the inventory_enabled flag that the converter consults.
   Monetary amounts and quantities are rationals. -/

/-- Values stored in database rows: SQL NULL, a numeric value, or a string. -/
inductive Value where
  | null : Value
  | num : Rat → Value
  | str : String → Value
deriving DecidableEq

/-- A database row decoded as a Python dict: an ordered field-name/value list.
Rows coming from a database have pairwise-distinct keys. -/
abbrev Row := List (String × Value)

/-- Dict lookup (`d.get(k)` / `d[k]`): the first binding for the key, if any. -/
def aget {α : Type} (d : List (String × α)) (k : String) : Option α :=
  (d.find? (fun e => e.1 == k)).map (fun e => e.2)

/-- Dict key-membership test (`k in d`). -/
def ahas {α : Type} (d : List (String × α)) (k : String) : Bool :=
  d.any (fun e => e.1 == k)

/-- Python dict assignment `d[k] = v`: overwrite in place if the key exists,
otherwise append (insertion order is preserved). -/
def aput {α : Type} (d : List (String × α)) (k : String) (v : α) :
    List (String × α) :=
  if d.any (fun e => e.1 == k) then
    d.map (fun e => if e.1 == k then (k, v) else e)
  else d ++ [(k, v)]

/-- The ProductUPC column of a catalog row, when it is a string. -/
def rowUPC (r : Row) : Option String :=
  match aget r "ProductUPC" with
  | some (Value.str s) => some s
  | _ => none

/-- Connection configuration, reduced to the one field the converter logic
branches on; the host/port/credential plumbing is an excluded collaborator. -/
structure Config where
  inventoryEnabled : Bool
deriving DecidableEq

/-- Row of the quotation_defaults table (database.py). -/
structure QuotationDefaults where
  customer_id : Nat
  default_status : Int
  titlePfx : String
  polling_interval_seconds : Nat
deriving DecidableEq

/-- Row of the conversion_tracking table: the idempotency-ledger record
(pick_list_id is UNIQUE in the schema). -/
structure ConversionRecord where
  pick_list_id : Nat
  quotation_id : Option Nat
  quotation_number : Option String
  success : Bool
  error_message : Option String
deriving DecidableEq

/-- The SQLite ledger database: conversion records, archival flags,
configuration and defaults. -/
structure LedgerDB where
  conversion_tracking : List ConversionRecord
  archived_picklists : List Nat
  config : Option Config
  defaults : Option QuotationDefaults
deriving DecidableEq

/-- A dbo.pick_list_products row: barcode (nullable), display name, and the
requested amount (nullable). -/
structure PickListProduct where
  barcode : Option String
  name : String
  amount : Option Rat
deriving DecidableEq

/-- The shipper database: dbo.pick_lists rows (only the id is consumed) and
dbo.pick_list_products rows tagged with their id_pick_list. -/
structure ShipperDB where
  pick_lists : List Nat
  pick_list_products : List (Nat × PickListProduct)
deriving DecidableEq

/-- A dbo.Customers_tbl row, reduced to its key; the shipping fields the
header insert copies are not referenced by any verified property. -/
structure Customer where
  customerID : Nat
deriving DecidableEq

/-- A dbo.Quotations_tbl header row (claim-relevant columns; the shipping
snapshot, date and constant columns of the INSERT are omitted).
QuotationTotal is not part of the INSERT column list: it is written by the
UPDATE at the end of create_quotation, hence optional. -/
structure Quotation where
  quotationID : Nat
  quotationNumber : String
  quotationTitle : String
  customerID : Nat
  status : Int
  quotationTotal : Option Rat
deriving DecidableEq

/-- A dbo.QuotationsDetails_tbl row (claim-relevant columns; the constant
columns of the INSERT are omitted). -/
structure QuotationDetail where
  quotationID : Nat
  productUPC : Option String
  qty : Rat
  unitPrice : Rat
  originalPrice : Rat
  unitCost : Rat
  extendedPrice : Rat
  extendedCost : Rat
  actExtendedPrice : Rat
deriving DecidableEq

/-- The BackOffice database: the non-identity column names of Items_tbl (as
returned by the INFORMATION_SCHEMA query), the Items_tbl rows, customers,
quotation headers and details, and the next IDENTITY value SCOPE_IDENTITY
will yield for Quotations_tbl. -/
structure BackOfficeDB where
  itemsCols : List String
  items : List Row
  customers : List Customer
  quotations : List Quotation
  quotationDetails : List QuotationDetail
  nextQuotationId : Nat
deriving DecidableEq

/-- The whole reachable state: ledger plus the three relational backends. -/
structure SysState where
  ledger : LedgerDB
  shipper : ShipperDB
  backoffice : BackOfficeDB
  inventory : List Row
deriving DecidableEq

/-! ### Ledger operations (database.py, SQLiteManager) -/

/-- SQLiteManager.log_conversion: a plain INSERT into conversion_tracking.
pick_list_id carries a UNIQUE constraint, so inserting a second record for
the same picklist raises (modelled as Except.error). -/
def log_conversion (L : LedgerDB) (pick_list_id : Nat) (success : Bool)
    (quotation_id : Option Nat) (quotation_number : Option String)
    (error_message : Option String) : Except String LedgerDB :=
  if L.conversion_tracking.any (fun r => r.pick_list_id == pick_list_id) then
    Except.error "UNIQUE constraint failed: conversion_tracking.pick_list_id"
  else
    Except.ok { L with conversion_tracking := L.conversion_tracking ++
      [⟨pick_list_id, quotation_id, quotation_number, success, error_message⟩] }

/-- The converter's try/except around log_conversion: a failing ledger write
is swallowed (only a warning is printed) and the ledger stays unchanged. -/
def tryLogConversion (L : LedgerDB) (pick_list_id : Nat) (success : Bool)
    (quotation_id : Option Nat) (quotation_number : Option String)
    (error_message : Option String) : LedgerDB :=
  match log_conversion L pick_list_id success quotation_id quotation_number
      error_message with
  | Except.ok L2 => L2
  | Except.error _ => L

/-- SQLiteManager.get_converted_picklist_ids:
SELECT pick_list_id FROM conversion_tracking WHERE success = 1. -/
def get_converted_picklist_ids (L : LedgerDB) : List Nat :=
  (L.conversion_tracking.filter (fun r => r.success)).map
    (fun r => r.pick_list_id)

/-- SQLiteManager.get_archived_picklist_ids:
SELECT pick_list_id FROM archived_picklists. -/
def get_archived_picklist_ids (L : LedgerDB) : List Nat :=
  L.archived_picklists

/-! ### Pending set and picklist lines (converter.py) -/

/-- One entry of the list returned by get_pending_picklists: the picklist row
(represented by its id) with the derived is_converted flag. -/
structure PendingEntry where
  id : Nat
  is_converted : Bool
deriving DecidableEq

/-- PicklistConverter.get_pending_picklists: every dbo.pick_lists row whose id
is not archived, annotated with is_converted = (id in converted set). -/
def get_pending_picklists (L : LedgerDB) (sh : ShipperDB) : List PendingEntry :=
  (sh.pick_lists.filter
      (fun pid => !((get_archived_picklist_ids L).contains pid))).map
    (fun pid => ⟨pid, (get_converted_picklist_ids L).contains pid⟩)

/-- PicklistConverter.get_picklist_products:
SELECT * FROM dbo.pick_list_products WHERE id_pick_list = pid
AND ISNULL(amount, 0) > 0. -/
def get_picklist_products (sh : ShipperDB) (picklist_id : Nat) :
    List PickListProduct :=
  (sh.pick_list_products.filter
      (fun e => e.1 == picklist_id && decide (0 < e.2.amount.getD 0))).map
    (fun e => e.2)

/-! ### Healing sync (converter.py: lookup_in_inventory,
copy_products_from_inventory, auto_sync_from_inventory) -/

/-- PicklistConverter.lookup_in_inventory: batched
SELECT * FROM dbo.Items_tbl WHERE ProductUPC IN (...) against the inventory
database, decoded into the dict {row['ProductUPC']: row} (later rows
overwrite earlier ones).  An unconfigured/disabled inventory, or the
malformed empty-IN query, yields the empty dict. -/
def lookup_in_inventory (enabled : Bool) (inv : List Row)
    (barcodes : List String) : List (String × Row) :=
  if !enabled then []
  else if barcodes.isEmpty then []
  else
    (inv.filter (fun r => match rowUPC r with
        | some u => barcodes.contains u
        | none => false)).foldl
      (fun d r => match rowUPC r with
        | some u => aput d u r
        | none => d) []

/-- Result dictionary of copy_products_from_inventory.  The early-error
returns carry only success=false and the error string; the normal return
carries the per-barcode copied/failed outcome lists. -/
structure CopyResult where
  success : Bool
  error : Option String
  copied : List String
  failed : List (String × String)
  copied_count : Nat
  failed_count : Nat
deriving DecidableEq

/-- Loop body of copy_products_from_inventory step 3, acting on the
accumulated (copied, failed, Items_tbl rows).  cols is the BackOffice
writable column set read before the loop, d the inventory lookup dict. -/
def copyStep (cols : List String) (d : List (String × Row))
    (acc : List String × List (String × String) × List Row) (b : String) :
    List String × List (String × String) × List Row :=
  match aget d b with
  | none => (acc.1, acc.2.1 ++ [(b, "Not found in inventory")], acc.2.2)
  | some product =>
    let common_columns := cols.filter (fun col => ahas product col)
    if common_columns.isEmpty then
      (acc.1, acc.2.1 ++ [(b, "No matching columns between databases")], acc.2.2)
    else
      let newRow : Row := common_columns.map
        (fun col => (col, (aget product col).getD Value.null))
      (acc.1 ++ [b], acc.2.1, acc.2.2 ++ [newRow])

/-- PicklistConverter.copy_products_from_inventory: read the Items_tbl
writable columns, fetch the barcodes from inventory in one batch, and insert
each found record into the BackOffice catalog via the per-barcode loop. -/
def copy_products_from_inventory (cfg : Option Config) (inv : List Row)
    (bo : BackOfficeDB) (barcodes : List String) : CopyResult × BackOfficeDB :=
  match cfg with
  | none => (⟨false, some "Database configuration not found", [], [], 0, 0⟩, bo)
  | some c =>
    if !c.inventoryEnabled then
      (⟨false, some "Inventory database not configured or not enabled",
        [], [], 0, 0⟩, bo)
    else
      let backoffice_columns := bo.itemsCols
      let inventory_products := lookup_in_inventory true inv barcodes
      if inventory_products.isEmpty then
        (⟨false, some "No products found in inventory for given barcodes",
          [], [], 0, 0⟩, bo)
      else
        let r := barcodes.foldl (copyStep backoffice_columns inventory_products)
          ([], [], bo.items)
        (⟨!r.1.isEmpty, none, r.1, r.2.1, r.1.length, r.2.1.length⟩,
         { bo with items := r.2.2 })

/-- Result dictionary of auto_sync_from_inventory. -/
structure SyncResult where
  synced_count : Nat
  failed_count : Nat
  synced_barcodes : List String
  failed_barcodes : List String
deriving DecidableEq

/-- PicklistConverter.auto_sync_from_inventory: look the missing barcodes up
in inventory and delegate the found ones to copy_products_from_inventory. -/
def auto_sync_from_inventory (cfg : Option Config) (inv : List Row)
    (bo : BackOfficeDB) (missing_barcodes : List String) :
    SyncResult × BackOfficeDB :=
  if missing_barcodes.isEmpty then (⟨0, 0, [], []⟩, bo)
  else
    let enabled := match cfg with
      | none => false
      | some c => c.inventoryEnabled
    if !enabled then
      (⟨0, missing_barcodes.length, [], missing_barcodes⟩, bo)
    else
      let inventory_products := lookup_in_inventory true inv missing_barcodes
      if inventory_products.isEmpty then
        (⟨0, missing_barcodes.length, [], missing_barcodes⟩, bo)
      else
        let found_barcodes := inventory_products.map (fun e => e.1)
        let r := copy_products_from_inventory cfg inv bo found_barcodes
        let synced_barcodes := r.1.copied
        let failed_to_copy := r.1.failed.map (fun e => e.1)
        let not_in_inventory := missing_barcodes.filter
          (fun bc => !(ahas inventory_products bc))
        let all_failed := failed_to_copy ++ not_in_inventory
        (⟨synced_barcodes.length, all_failed.length, synced_barcodes,
          all_failed⟩, r.2)

/-! ### Quotation builder (converter.py: get_next_quotation_number,
get_customer_data, create_quotation) -/

/-- PicklistConverter._truncate_string: None stays None, strings are cut to
the destination column width. -/
def _truncate_string (value : Option String) (max_length : Nat) :
    Option String :=
  value.map (fun s => s.take max_length)

/-- Decimal parse of a purely numeric (all-digit, nonempty) string. -/
def parseNat? (s : String) : Option Nat :=
  if !s.data.isEmpty && s.data.all Char.isDigit then
    some (s.data.foldl (fun acc c => acc * 10 + (c.toNat - 48)) 0)
  else none

/-- The quotation numbers of the existing headers that are purely numeric
(ISNUMERIC + CAST AS BIGINT of the SQL query, modelled as decimal-digit
parsing). -/
def numericQuotationNumbers (bo : BackOfficeDB) : List Nat :=
  bo.quotations.filterMap (fun q => parseNat? q.quotationNumber)

/-- PicklistConverter.get_next_quotation_number:
SELECT MAX(CAST(QuotationNumber AS BIGINT)) WHERE ISNUMERIC(QuotationNumber)=1,
NULL (no numeric number) collapsing to 0, plus one. -/
def get_next_quotation_number (bo : BackOfficeDB) : Nat :=
  let max_number := (numericQuotationNumbers bo).foldr Nat.max 0
  max_number + 1

/-- PicklistConverter.get_customer_data:
SELECT ... FROM dbo.Customers_tbl WHERE CustomerID = %s (fetchone). -/
def get_customer_data (bo : BackOfficeDB) (customer_id : Nat) :
    Option Customer :=
  bo.customers.find? (fun c => c.customerID == customer_id)

/-- A single-quote character, used in the unmatched-product messages. -/
def sqt : String := String.singleton (Char.ofNat 39)

/-- The message recorded for a line without a barcode:
f-string Product '{name}' has no barcode. -/
def describe_no_barcode (p : PickListProduct) : String :=
  "Product " ++ sqt ++ p.name ++ sqt ++ " has no barcode"

/-- The message recorded for a line whose barcode is not in the catalog:
f-string Barcode '{barcode}' (Product: {name}). -/
def describe_unmatched (b : String) (p : PickListProduct) : String :=
  "Barcode " ++ sqt ++ b ++ sqt ++ " (Product: " ++ p.name ++ ")"

/-- The barcode of a picklist line under Python truthiness: None and the
empty string both count as no barcode. -/
def getBarcode (p : PickListProduct) : Option String :=
  match p.barcode with
  | none => none
  | some s => if s == "" then none else some s

/-- create_quotation step 1: the barcodes to check (lines with a barcode,
in line order). -/
def barcodes_to_check (products : List PickListProduct) : List String :=
  products.filterMap getBarcode

/-- create_quotation steps 2/4: fold the Items_tbl rows whose ProductUPC is
among the requested barcodes into the barcode_to_item dict (later rows
overwrite), starting from a previous dict (empty at step 2). -/
def boBuildMap (items : List Row) (barcodes : List String)
    (init : List (String × Row)) : List (String × Row) :=
  (items.filter (fun r => match rowUPC r with
      | some u => barcodes.contains u
      | none => false)).foldl
    (fun d r => match rowUPC r with
      | some u => aput d u r
      | none => d) init

/-- Matching pass of create_quotation (steps 3 and the re-match of step 4):
the matched (line, item) pairs, in line order. -/
def matchedOf (m : List (String × Row)) (products : List PickListProduct) :
    List (PickListProduct × Row) :=
  products.filterMap (fun p => match getBarcode p with
    | none => none
    | some b => (aget m b).map (fun item => (p, item)))

/-- Step 3 bookkeeping: barcodes present on a line but absent from the
catalog, in line order (the input of the healing escalation). -/
def missingOf (m : List (String × Row)) (products : List PickListProduct) :
    List String :=
  products.filterMap (fun p => match getBarcode p with
    | none => none
    | some b => if (aget m b).isSome then none else some b)

/-- Step 1 bookkeeping: the no-barcode messages, collected for every
barcode-less line before any matching happens. -/
def initialUnmatched (products : List PickListProduct) : List String :=
  products.filterMap (fun p => match getBarcode p with
    | none => some (describe_no_barcode p)
    | some _ => none)

/-- The unmatched-message list of the first pass (steps 1+3): all no-barcode
messages first, then the unmatched-barcode messages in line order. -/
def unmatchedFirstPass (m : List (String × Row))
    (products : List PickListProduct) : List String :=
  initialUnmatched products ++ products.filterMap (fun p =>
    match getBarcode p with
    | none => none
    | some b => if (aget m b).isSome then none
                else some (describe_unmatched b p))

/-- The unmatched-message list of the re-match pass (step 4): a single loop,
so no-barcode and unmatched-barcode messages interleave in line order. -/
def unmatchedRematch (m : List (String × Row))
    (products : List PickListProduct) : List String :=
  products.filterMap (fun p => match getBarcode p with
    | none => some (describe_no_barcode p)
    | some b => if (aget m b).isSome then none
                else some (describe_unmatched b p))

/-- The unmatched-message list create_quotation gates on: the re-match list
when the re-match pass ran, the first-pass list otherwise. -/
def finalUnmatched (m : List (String × Row)) (rematched : Bool)
    (products : List PickListProduct) : List String :=
  if rematched then unmatchedRematch m products
  else unmatchedFirstPass m products

/-- Steps 2-4 of create_quotation: initial batch match, healing escalation
for missing barcodes, and the re-query of newly synced barcodes.  Returns
the final barcode_to_item dict, whether the re-match pass ran (it changes
the message ordering), and the BackOffice state after healing (healing
commits on its own connections, so it survives a later failure). -/
def healPhase (cfg : Option Config) (inv : List Row) (bo : BackOfficeDB)
    (products : List PickListProduct) :
    List (String × Row) × Bool × BackOfficeDB :=
  let m1 := boBuildMap bo.items (barcodes_to_check products) []
  let missing1 := missingOf m1 products
  if missing1.isEmpty then (m1, false, bo)
  else
    let r := auto_sync_from_inventory cfg inv bo missing1
    if 0 < r.1.synced_count then
      (boBuildMap r.2.items r.1.synced_barcodes m1, true, r.2)
    else (m1, false, r.2)

/-- item.get(k, 0) or 0 on a catalog row: a numeric value is kept (0 stays
0), NULL and a missing column collapse to 0. -/
def priceOf (item : Row) (k : String) : Rat :=
  match aget item k with
  | some (Value.num q) => q
  | _ => 0

/-- One INSERT INTO dbo.QuotationsDetails_tbl row for a matched line.
product['amount'] is non-null here because get_picklist_products filters
zero/null quantities (the comment in the source says exactly this). -/
def mkDetail (quotation_id : Nat) (pr : PickListProduct × Row) :
    QuotationDetail :=
  let qty := pr.1.amount.getD 0
  let unit_price := priceOf pr.2 "UnitPrice"
  let unit_cost := priceOf pr.2 "UnitCost"
  let extended_price := qty * unit_price
  let extended_cost := qty * unit_cost
  { quotationID := quotation_id,
    productUPC := _truncate_string (rowUPC pr.2) 20,
    qty := qty,
    unitPrice := unit_price,
    originalPrice := unit_price,
    unitCost := unit_cost,
    extendedPrice := extended_price,
    extendedCost := extended_cost,
    actExtendedPrice := extended_price }

/-- The INSERT INTO dbo.Quotations_tbl header row built by create_quotation
(claim-relevant columns; truncation widths as in the source). -/
def quotationHeader (quotation_id : Nat)
    (quotation_number quotation_title : String) (customer_id : Nat)
    (status : Int) : Quotation :=
  { quotationID := quotation_id,
    quotationNumber := (_truncate_string (some quotation_number) 20).getD "",
    quotationTitle := (_truncate_string (some quotation_title) 50).getD "",
    customerID := customer_id,
    status := status,
    quotationTotal := none }

/-- The UPDATE dbo.Quotations_tbl SET QuotationTotal WHERE QuotationID,
applied row-wise. -/
def setTotal (quotation_id : Nat) (quotation_total : Rat) (q : Quotation) :
    Quotation :=
  if q.quotationID == quotation_id then
    { q with quotationTotal := some quotation_total }
  else q

/-- Result tuple of create_quotation:
(success, quotation_id, quotation_number, error_message). -/
structure CreateQuotationResult where
  success : Bool
  quotation_id : Option Nat
  quotation_number : Option String
  error : Option String
deriving DecidableEq

/-- PicklistConverter.create_quotation: match (with healing escalation and
re-match), gate on any unmatched line, then insert the header, one detail
row per matched line, recompute the total as the SUM of the inserted
ExtendedPrice values and write it back to the header, all committed
together. -/
def create_quotation (cfg : Option Config) (inv : List Row)
    (bo : BackOfficeDB) (picklist_id : Nat)
    (products : List PickListProduct) (customer_id : Nat) (status : Int)
    (titlePfx : String) : CreateQuotationResult × BackOfficeDB :=
  let h := healPhase cfg inv bo products
  let m := h.1
  let rematched := h.2.1
  let bo1 := h.2.2
  let matched_products := matchedOf m products
  let unmatched_barcodes := finalUnmatched m rematched products
  if !unmatched_barcodes.isEmpty then
    (⟨false, none, none, some ("Unable to match products: " ++
      String.intercalate ", " unmatched_barcodes)⟩, bo1)
  else
    match get_customer_data bo1 customer_id with
    | none => (⟨false, none, none,
        some ("Customer ID " ++ toString customer_id ++ " not found")⟩, bo1)
    | some _customer =>
      let quotation_number := toString (get_next_quotation_number bo1)
      let quotation_title := titlePfx ++ " " ++ toString picklist_id
      let quotation_id := bo1.nextQuotationId
      let header := quotationHeader quotation_id quotation_number
        quotation_title customer_id status
      let newDetails := matched_products.map (mkDetail quotation_id)
      let details2 := bo1.quotationDetails ++ newDetails
      let quotation_total :=
        ((details2.filter (fun d => d.quotationID == quotation_id)).map
          (fun d => d.extendedPrice)).sum
      let quotations2 := (bo1.quotations ++ [header]).map
        (setTotal quotation_id quotation_total)
      (⟨true, some quotation_id, some quotation_number, none⟩,
       { bo1 with quotations := quotations2, quotationDetails := details2,
                  nextQuotationId := bo1.nextQuotationId + 1 })

/-! ### Per-picklist conversion and fan-out (converter.py) -/

/-- The failure message for a picklist with no eligible lines:
f-string Picklist #{id} has no products with quantity > 0. -/
def noEligibleMsg (picklist_id : Nat) : String :=
  "Picklist #" ++ toString picklist_id ++ " has no products with quantity > 0"

/-- PicklistConverter.convert_picklist: check config and defaults, fetch the
eligible lines, fail (and log) when there are none, otherwise build the
quotation and log the outcome; a failing ledger write never overturns the
result already committed to the BackOffice store. -/
def convert_picklist (st : SysState) (picklist_id : Nat) :
    (Bool × Option String) × SysState :=
  match st.ledger.config with
  | none => ((false, some "Database configuration not found"), st)
  | some _cfg =>
    match st.ledger.defaults with
    | none => ((false, some "Quotation defaults not configured"), st)
    | some defaults =>
      let products := get_picklist_products st.shipper picklist_id
      if products.isEmpty then
        let error_msg := noEligibleMsg picklist_id
        let L2 := tryLogConversion st.ledger picklist_id false none none
          (some error_msg)
        ((false, some error_msg), { st with ledger := L2 })
      else
        let r := create_quotation st.ledger.config st.inventory st.backoffice
          picklist_id products defaults.customer_id defaults.default_status
          defaults.titlePfx
        let L2 := tryLogConversion st.ledger picklist_id r.1.success
          r.1.quotation_id r.1.quotation_number r.1.error
        ((r.1.success, r.1.error),
         { st with backoffice := r.2, ledger := L2 })

/-- Result dictionary of convert_all_pending. -/
structure ConvertAllResults where
  error : Option String
  total_pending : Nat
  converted : Nat
  failed : Nat
  errors : List (Nat × Option String)
deriving DecidableEq

/-- Loop body of convert_all_pending: convert one pending entry and record
the outcome in the running summary. -/
def convertAllStep (acc : ConvertAllResults × SysState) (e : PendingEntry) :
    ConvertAllResults × SysState :=
  let r := convert_picklist acc.2 e.id
  if r.1.1 then
    ({ acc.1 with converted := acc.1.converted + 1 }, r.2)
  else
    let errs := acc.1.errors ++ [(e.id, r.1.2)]
    ({ acc.1 with failed := acc.1.failed + 1, errors := errs }, r.2)

/-- PicklistConverter.convert_all_pending: recompute the pending set and run
convert_picklist sequentially over every entry, accumulating counts and the
per-picklist error list. -/
def convert_all_pending (st : SysState) : ConvertAllResults × SysState :=
  match st.ledger.config with
  | none => (⟨some "Database configuration not found", 0, 0, 0, []⟩, st)
  | some _cfg =>
    let pending := get_pending_picklists st.ledger st.shipper
    pending.foldl convertAllStep (⟨none, pending.length, 0, 0, []⟩, st)

/-! ### Scheduler (poller.py, PollingService) -/

/-- The mutable control state of PollingService: the running flag (start and
stop both take the service lock, so they are atomic transitions). -/
structure PollingService where
  running : Bool
deriving DecidableEq

/-- PollingService.start: fail if the loop is active, otherwise set the flag
and launch the loop thread. -/
def PollingService.start (s : PollingService) :
    (Bool × String) × PollingService :=
  if s.running then
    ((false, "Polling service is already running"), s)
  else
    ((true, "Polling service started"), { s with running := true })

/-- PollingService.stop: fail if the loop is inactive, otherwise clear the
flag (the cancellation signal) and join the thread with a bounded timeout. -/
def PollingService.stop (s : PollingService) :
    (Bool × String) × PollingService :=
  if !s.running then
    ((false, "Polling service is not running"), s)
  else
    ((true, "Polling service stopped"), { s with running := false })

/-- Control points of _poll_loop: about to test the while-condition, inside
the sleep loop with a number of one-second increments left, or exited.
The cycle body (convert_all_pending) is atomic at this granularity. -/
inductive LoopPC where
  | whileCheck : LoopPC
  | sleeping : Nat → LoopPC
  | exited : LoopPC
deriving DecidableEq

/-- One observable step of _poll_loop under a fixed value of the running
flag: the while-test runs the cycle body and enters the sleep loop when
running, and exits otherwise; each sleep increment re-tests the flag and
breaks back to the while-test when it was cleared. -/
def pollStep (running : Bool) (interval : Nat) : LoopPC → LoopPC
  | LoopPC.whileCheck =>
      if running then LoopPC.sleeping interval else LoopPC.exited
  | LoopPC.sleeping 0 => LoopPC.whileCheck
  | LoopPC.sleeping (n + 1) =>
      if running then LoopPC.sleeping n else LoopPC.whileCheck
  | LoopPC.exited => LoopPC.exited

/-! ### Specification-side characterizations

The following definitions restate, as direct per-element computations, what
the imperative loops of the source accumulate; the theorems below prove the
loop-based definitions equal to them and then reason over these forms. -/

/-- The barcodes the copy loop reports as copied: found in the inventory
lookup and with a nonempty column intersection. -/
def copiedList (cols : List String) (d : List (String × Row))
    (bs : List String) : List String :=
  bs.filter (fun b => match aget d b with
    | none => false
    | some product => !(cols.filter (fun col => ahas product col)).isEmpty)

/-- The per-barcode failures the copy loop reports: not found in inventory,
or zero overlapping writable columns. -/
def failedList (cols : List String) (d : List (String × Row))
    (bs : List String) : List (String × String) :=
  bs.filterMap (fun b => match aget d b with
    | none => some (b, "Not found in inventory")
    | some product =>
      if (cols.filter (fun col => ahas product col)).isEmpty then
        some (b, "No matching columns between databases")
      else none)

/-- The rows the copy loop inserts into the primary catalog: for each copied
barcode, the inventory record projected onto the overlapping columns. -/
def insertedList (cols : List String) (d : List (String × Row))
    (bs : List String) : List Row :=
  bs.filterMap (fun b => match aget d b with
    | none => none
    | some product =>
      let common := cols.filter (fun col => ahas product col)
      if common.isEmpty then none
      else some (common.map (fun col => (col, (aget product col).getD Value.null))))

/-- Number of primary-catalog rows carrying a given barcode. -/
def countUPC (items : List Row) (b : String) : Nat :=
  (items.filter (fun r => rowUPC r == some b)).length

/-- pat matches at the head of l (contiguously). -/
def matchesAt (pat l : List Char) : Bool :=
  match pat, l with
  | [], _ => true
  | _ :: _, [] => false
  | p :: ps, c :: cs => p == c && matchesAt ps cs

/-- pat occurs contiguously somewhere in l. -/
def hasSub (pat l : List Char) : Bool :=
  match l with
  | [] => pat.isEmpty
  | _ :: t => matchesAt pat l || hasSub pat t

/-! ### Generic list lemmas -/

theorem map_eq_self_of_mem {α : Type} {f : α → α} :
    ∀ {l : List α}, (∀ x ∈ l, f x = x) → l.map f = l := by
  intro l
  induction l with
  | nil => intro _; rfl
  | cons a t ih =>
    intro h
    simp only [List.map_cons]
    rw [h a (List.mem_cons_self a t), ih (fun x hx => h x (List.mem_cons_of_mem a hx))]

theorem length_filterMap_all_some {α β : Type} {f : α → Option β} :
    ∀ {l : List α}, (∀ x ∈ l, (f x).isSome = true) →
      (l.filterMap f).length = l.length := by
  intro l
  induction l with
  | nil => intro _; rfl
  | cons a t ih =>
    intro h
    have ha := h a (List.mem_cons_self a t)
    obtain ⟨b, hb⟩ := Option.isSome_iff_exists.mp ha
    simp only [List.filterMap_cons, hb, List.length_cons]
    rw [ih (fun x hx => h x (List.mem_cons_of_mem a hx))]

theorem foldr_max_le {n : Nat} : ∀ {l : List Nat}, n ∈ l → n ≤ l.foldr Nat.max 0 := by
  intro l
  induction l with
  | nil => intro h; cases h
  | cons a t ih =>
    intro h
    rcases List.mem_cons.mp h with h1 | h2
    · subst h1; exact Nat.le_max_left _ _
    · exact Nat.le_trans (ih h2) (Nat.le_max_right _ _)

theorem foldr_max_attained : ∀ (l : List Nat),
    l.foldr Nat.max 0 = 0 ∨ l.foldr Nat.max 0 ∈ l := by
  intro l
  induction l with
  | nil => left; rfl
  | cons a t ih =>
    simp only [List.foldr_cons]
    rcases Nat.le_total a (t.foldr Nat.max 0) with h | h
    · have hx : Nat.max a (t.foldr Nat.max 0) = t.foldr Nat.max 0 :=
        Nat.le_antisymm (Nat.max_le.mpr ⟨h, Nat.le_refl _⟩) (Nat.le_max_right _ _)
      rw [hx]
      rcases ih with h0 | hm
      · left; exact h0
      · right; exact List.mem_cons_of_mem a hm
    · have hx : Nat.max a (t.foldr Nat.max 0) = a :=
        Nat.le_antisymm (Nat.max_le.mpr ⟨Nat.le_refl _, h⟩) (Nat.le_max_left _ _)
      rw [hx]
      right; exact List.mem_cons_self a t

/-! ### Ledger/pending-set lemmas -/

theorem mem_converted_iff (L : LedgerDB) (pid : Nat) :
    pid ∈ get_converted_picklist_ids L ↔
      ∃ r ∈ L.conversion_tracking, r.pick_list_id = pid ∧ r.success = true := by
  simp only [get_converted_picklist_ids, List.mem_map, List.mem_filter]
  constructor
  · rintro ⟨r, ⟨hm, hs⟩, hp⟩; exact ⟨r, hm, hp, hs⟩
  · rintro ⟨r, hm, hp, hs⟩; exact ⟨r, ⟨hm, hs⟩, hp⟩

/-- C10: in every pending-set listing, a picklist's is_converted flag is true
iff the ledger holds at least one ConversionRecord for it with success =
true; failed attempts alone never make it converted. -/
theorem C10_theorem (L : LedgerDB) (sh : ShipperDB) (e : PendingEntry)
    (he : e ∈ get_pending_picklists L sh) :
    e.is_converted = true ↔
      ∃ r ∈ L.conversion_tracking, r.pick_list_id = e.id ∧ r.success = true := by
  simp only [get_pending_picklists, List.mem_map] at he
  obtain ⟨pid, _hpid, rfl⟩ := he
  show List.elem pid (get_converted_picklist_ids L) = true ↔ _
  rw [List.elem_iff]
  exact mem_converted_iff L pid

def C10_L : LedgerDB :=
  ⟨[⟨1, some 5, some "7", true, none⟩, ⟨2, none, none, false, some "x"⟩],
   [], none, none⟩

def C10_sh : ShipperDB := ⟨[1, 2], []⟩

/-- Witness for C10 at a concrete ledger: picklist 1 has a successful record
and is flagged converted; the equivalence holds at that entry. -/
theorem C10_witness :
    (⟨1, true⟩ : PendingEntry) ∈ get_pending_picklists C10_L C10_sh ∧
    ((⟨1, true⟩ : PendingEntry).is_converted = true ↔
      ∃ r ∈ C10_L.conversion_tracking, r.pick_list_id = 1 ∧ r.success = true) :=
  ⟨by decide, C10_theorem C10_L C10_sh ⟨1, true⟩ (by decide)⟩

/-- C8: the next quotation number is the maximum over the purely numeric
existing quotation numbers, plus one; non-numeric numbers are ignored, and
with no numeric number present the result is 1. -/
theorem C8_theorem (bo : BackOfficeDB) :
    (∀ n ∈ numericQuotationNumbers bo, n < get_next_quotation_number bo) ∧
    (numericQuotationNumbers bo = [] → get_next_quotation_number bo = 1) ∧
    (get_next_quotation_number bo = 1 ∨
      get_next_quotation_number bo - 1 ∈ numericQuotationNumbers bo) := by
  refine ⟨?_, ?_, ?_⟩
  · intro n hn
    have h := foldr_max_le hn
    simp only [get_next_quotation_number]
    omega
  · intro h
    simp [get_next_quotation_number, h]
  · rcases foldr_max_attained (numericQuotationNumbers bo) with h | h
    · left; simp [get_next_quotation_number, h]
    · right; simpa [get_next_quotation_number] using h

def C8_bo : BackOfficeDB :=
  ⟨[], [], [],
   [⟨1, "12", "t", 7, 1, none⟩, ⟨2, "xyz", "t", 7, 1, none⟩,
    ⟨3, "5", "t", 7, 1, none⟩], [], 4⟩

/-- Witness for C8 at a concrete store: numbers 12, xyz, 5 yield 13, and the
bound of the theorem holds at the member 12. -/
theorem C8_witness :
    12 ∈ numericQuotationNumbers C8_bo ∧
    12 < get_next_quotation_number C8_bo :=
  ⟨by decide, (C8_theorem C8_bo).1 12 (by decide)⟩

/-- C9: start while the loop is active fails with already-running, stop while
inactive fails with not-running, and stop after a successful start clears the
cancellation flag, after which the loop reaches the exited state within two
observable steps from any control point. -/
theorem C9_theorem (s : PollingService) (interval : Nat) :
    (s.running = true →
      s.start = ((false, "Polling service is already running"), s)) ∧
    (s.running = false →
      s.stop = ((false, "Polling service is not running"), s)) ∧
    (s.running = false →
      s.start.2.start.1 = (false, "Polling service is already running") ∧
      s.start.2.stop.1 = (true, "Polling service stopped") ∧
      s.start.2.stop.2.running = false ∧
      ∀ pc : LoopPC,
        pollStep s.start.2.stop.2.running interval
          (pollStep s.start.2.stop.2.running interval pc) = LoopPC.exited) := by
  obtain ⟨r⟩ := s
  refine ⟨?_, ?_, ?_⟩
  · intro h
    simp only at h
    subst h
    rfl
  · intro h
    simp only at h
    subst h
    rfl
  · intro h
    simp only at h
    subst h
    refine ⟨rfl, rfl, rfl, ?_⟩
    intro pc
    cases pc with
    | whileCheck => rfl
    | sleeping n => cases n <;> rfl
    | exited => rfl

/-- Witness for C9 at concrete service states: start-after-start fails,
stop-before-start fails, stop-after-start succeeds. -/
theorem C9_witness :
    (⟨true⟩ : PollingService).start =
      ((false, "Polling service is already running"), ⟨true⟩) ∧
    (⟨false⟩ : PollingService).stop =
      ((false, "Polling service is not running"), ⟨false⟩) ∧
    (⟨false⟩ : PollingService).start.2.stop.1 =
      (true, "Polling service stopped") :=
  ⟨(C9_theorem ⟨true⟩ 60).1 rfl, (C9_theorem ⟨false⟩ 60).2.1 rfl,
   ((C9_theorem ⟨false⟩ 60).2.2 rfl).2.1⟩

/-! ### Conversion-outcome lemmas -/

theorem create_quotation_success_error_none
    (cfg : Option Config) (inv : List Row) (bo : BackOfficeDB) (pid : Nat)
    (products : List PickListProduct) (cid : Nat) (status : Int) (tp : String)
    (hs : (create_quotation cfg inv bo pid products cid status tp).1.success
      = true) :
    (create_quotation cfg inv bo pid products cid status tp).1.error = none := by
  simp only [create_quotation] at hs ⊢
  split at hs
  · simp at hs
  · rename_i hcond
    split at hs
    · simp at hs
    · rw [if_neg hcond]

def C5_st2 : SysState :=
  ⟨⟨[⟨9, some 5, some "7", true, none⟩], [], some ⟨false⟩,
    some ⟨7, 1, "PL", 60⟩⟩,
   ⟨[9], []⟩, ⟨[], [], [], [], [], 1⟩, []⟩

/-- Counterexample to C5 as stated: picklist 9 has zero eligible lines but
already carries a ConversionRecord (the routine re-attempt case, since
converted and failed picklists stay in the pending set); convert_picklist
returns the no-eligible-products failure, yet the UNIQUE insert fails and is
swallowed, so no failed ConversionRecord is written — the ledger is
unchanged and holds no failed record for the picklist at all. -/
theorem C5_counterexample :
    (convert_picklist C5_st2 9).1 = (false, some (noEligibleMsg 9)) ∧
    (convert_picklist C5_st2 9).2.ledger = C5_st2.ledger ∧
    ¬ ∃ r ∈ (convert_picklist C5_st2 9).2.ledger.conversion_tracking,
        r.pick_list_id = 9 ∧ r.success = false :=
  ⟨by decide, by decide, by decide⟩

/-- C5 (amended): a picklist with zero eligible lines makes convert_picklist
fail with the no-eligible-products reason and attempt the ledger write; the
failed ConversionRecord is actually appended only when the ledger holds no
ConversionRecord for that picklist yet — when one already exists, the plain
INSERT violates the UNIQUE pick_list_id constraint, the error is swallowed,
and the ledger is left unchanged, so no failed record is written on a
re-attempt. -/
theorem C5_theorem (st : SysState) (pid : Nat) (c : Config)
    (d : QuotationDefaults)
    (hc : st.ledger.config = some c) (hd : st.ledger.defaults = some d)
    (hp : get_picklist_products st.shipper pid = []) :
    (convert_picklist st pid).1 = (false, some (noEligibleMsg pid)) ∧
    (convert_picklist st pid).2.backoffice = st.backoffice ∧
    ((∀ r ∈ st.ledger.conversion_tracking, r.pick_list_id ≠ pid) →
      (convert_picklist st pid).2.ledger.conversion_tracking =
        st.ledger.conversion_tracking ++
          [⟨pid, none, none, false, some (noEligibleMsg pid)⟩]) ∧
    ((∃ r ∈ st.ledger.conversion_tracking, r.pick_list_id = pid) →
      (convert_picklist st pid).2.ledger = st.ledger) := by
  simp only [convert_picklist, hc, hd, hp, List.isEmpty_nil, if_true]
  refine ⟨?_, ?_, ?_, ?_⟩
  · first | rfl | trivial
  · first | rfl | trivial
  · intro hfresh
    have hany : st.ledger.conversion_tracking.any
        (fun r => r.pick_list_id == pid) = false := by
      rw [List.any_eq_false]
      intro r hr
      simp only [beq_iff_eq]
      exact hfresh r hr
    simp only [tryLogConversion, log_conversion, hany, Bool.false_eq_true,
      if_false]
  · intro hdup
    have hany : st.ledger.conversion_tracking.any
        (fun r => r.pick_list_id == pid) = true := by
      rcases hdup with ⟨r, hr, hpd⟩
      exact List.any_eq_true.mpr ⟨r, hr, by simp [hpd]⟩
    simp only [tryLogConversion, log_conversion, hany, if_true]

def C5_st : SysState :=
  ⟨⟨[], [], some ⟨false⟩, some ⟨7, 1, "PL", 60⟩⟩, ⟨[9], []⟩,
   ⟨[], [], [], [], [], 1⟩, []⟩

/-- Witness for C5 (amended) at a concrete state: picklist 9 has no lines
and no prior record, so the conversion fails with the no-eligible-products
message and the failed record lands in the ledger. -/
theorem C5_witness :
    (convert_picklist C5_st 9).1 = (false, some (noEligibleMsg 9)) ∧
    (convert_picklist C5_st 9).2.ledger.conversion_tracking =
      C5_st.ledger.conversion_tracking ++
        [⟨9, none, none, false, some (noEligibleMsg 9)⟩] :=
  ⟨(C5_theorem C5_st 9 ⟨false⟩ ⟨7, 1, "PL", 60⟩ rfl rfl (by decide)).1,
   (C5_theorem C5_st 9 ⟨false⟩ ⟨7, 1, "PL", 60⟩ rfl rfl (by decide)).2.2.1
     (by intro r hr; cases hr)⟩

/-- C7: when the quotation was committed to the quotation store and the
ledger write then fails (a record for the picklist already exists, so the
UNIQUE insert raises), convert_picklist still returns success with no error
and the committed BackOffice state is kept; the ledger stays as it was. -/
theorem C7_theorem (st : SysState) (pid : Nat) (c : Config)
    (d : QuotationDefaults)
    (hc : st.ledger.config = some c) (hd : st.ledger.defaults = some d)
    (hne : (get_picklist_products st.shipper pid).isEmpty = false)
    (hs : (create_quotation st.ledger.config st.inventory st.backoffice pid
        (get_picklist_products st.shipper pid) d.customer_id d.default_status
        d.titlePfx).1.success = true)
    (hdup : ∃ rec ∈ st.ledger.conversion_tracking, rec.pick_list_id = pid) :
    (convert_picklist st pid).1 = (true, none) ∧
    (convert_picklist st pid).2.backoffice =
      (create_quotation st.ledger.config st.inventory st.backoffice pid
        (get_picklist_products st.shipper pid) d.customer_id d.default_status
        d.titlePfx).2 ∧
    (convert_picklist st pid).2.ledger = st.ledger := by
  have herr := create_quotation_success_error_none st.ledger.config
    st.inventory st.backoffice pid (get_picklist_products st.shipper pid)
    d.customer_id d.default_status d.titlePfx hs
  have hany : st.ledger.conversion_tracking.any
      (fun r => r.pick_list_id == pid) = true := by
    rcases hdup with ⟨rec, hm, hpd⟩
    exact List.any_eq_true.mpr ⟨rec, hm, by simp [hpd]⟩
  rw [hc] at hs herr
  simp only [convert_picklist, hc, hd, hne, Bool.false_eq_true, if_false,
    tryLogConversion, log_conversion, hany, if_true]
  refine ⟨?_, ?_, ?_⟩
  · rw [hs, herr]
  · trivial
  · trivial

def C7_bo : BackOfficeDB :=
  ⟨["ProductUPC", "UnitPrice", "UnitCost"],
   [[("ProductUPC", Value.str "B1"), ("UnitPrice", Value.num 10),
     ("UnitCost", Value.num 6)]],
   [⟨7⟩], [], [], 1⟩

def C7_st : SysState :=
  ⟨⟨[⟨3, none, none, false, some "old failure"⟩], [], some ⟨false⟩,
    some ⟨7, 1, "PL", 60⟩⟩,
   ⟨[3], [(3, ⟨some "B1", "AAA", some 3⟩)]⟩, C7_bo, []⟩

/-- Witness for C7 at a concrete state: picklist 3 converts successfully, the
ledger write fails on the UNIQUE constraint (a prior failed record for 3
exists), yet the result is success with no error and the ledger unchanged. -/
theorem C7_witness :
    (convert_picklist C7_st 3).1 = (true, none) ∧
    (convert_picklist C7_st 3).2.ledger = C7_st.ledger :=
  ⟨(C7_theorem C7_st 3 ⟨false⟩ ⟨7, 1, "PL", 60⟩ rfl rfl (by decide) (by decide)
      ⟨⟨3, none, none, false, some "old failure"⟩, by decide, rfl⟩).1,
   (C7_theorem C7_st 3 ⟨false⟩ ⟨7, 1, "PL", 60⟩ rfl rfl (by decide) (by decide)
      ⟨⟨3, none, none, false, some "old failure"⟩, by decide, rfl⟩).2.2⟩

/-! ### Copy-loop characterization -/

theorem foldl_copyStep (cols : List String) (d : List (String × Row)) :
    ∀ (bs : List String) (cp : List String) (fl : List (String × String))
      (its : List Row),
      bs.foldl (copyStep cols d) (cp, fl, its) =
        (cp ++ copiedList cols d bs, fl ++ failedList cols d bs,
         its ++ insertedList cols d bs) := by
  intro bs
  induction bs with
  | nil =>
    intro cp fl its
    simp [copiedList, failedList, insertedList]
  | cons b t ih =>
    intro cp fl its
    simp only [List.foldl_cons]
    rcases hag : aget d b with _ | product
    · have hstep : copyStep cols d (cp, fl, its) b =
          (cp, fl ++ [(b, "Not found in inventory")], its) := by
        simp [copyStep, hag]
      rw [hstep, ih]
      simp [copiedList, failedList, insertedList, List.filter_cons,
        List.filterMap_cons, hag, List.append_assoc]
    · by_cases hcm : (cols.filter (fun col => ahas product col)).isEmpty
      · have hstep : copyStep cols d (cp, fl, its) b =
            (cp, fl ++ [(b, "No matching columns between databases")], its) := by
          simp [copyStep, hag, hcm]
        rw [hstep, ih]
        simp only [copiedList, failedList, insertedList, List.filter_cons,
          List.filterMap_cons, hag, hcm, List.append_assoc]
        have hall : ∀ a ∈ cols, ahas product a = false := by
          simpa using hcm
        simp [hall]
      · have hstep : copyStep cols d (cp, fl, its) b =
            (cp ++ [b], fl,
             its ++ [(cols.filter (fun col => ahas product col)).map
               (fun col => (col, (aget product col).getD Value.null))]) := by
          simp [copyStep, hag, hcm]
        rw [hstep, ih]
        simp only [copiedList, failedList, insertedList, List.filter_cons,
          List.filterMap_cons, hag, hcm, List.append_assoc]
        have hnall : ¬ ∀ a ∈ cols, ahas product a = false := by
          simpa using hcm
        simp [hnall]

theorem copy_products_eq (c : Config) (inv : List Row) (bo : BackOfficeDB)
    (bs : List String)
    (hen : c.inventoryEnabled = true)
    (hne : (lookup_in_inventory true inv bs).isEmpty = false) :
    copy_products_from_inventory (some c) inv bo bs =
      (⟨!(copiedList bo.itemsCols (lookup_in_inventory true inv bs) bs).isEmpty,
        none,
        copiedList bo.itemsCols (lookup_in_inventory true inv bs) bs,
        failedList bo.itemsCols (lookup_in_inventory true inv bs) bs,
        (copiedList bo.itemsCols (lookup_in_inventory true inv bs) bs).length,
        (failedList bo.itemsCols (lookup_in_inventory true inv bs) bs).length⟩,
       { bo with items := bo.items ++
          insertedList bo.itemsCols (lookup_in_inventory true inv bs) bs }) := by
  simp only [copy_products_from_inventory, hen, Bool.not_true,
    Bool.false_eq_true, if_false, hne, foldl_copyStep, List.nil_append]

/-! ### Inventory-lookup and projection lemmas -/

theorem aput_upc {d : List (String × Row)} {u : String} {r : Row}
    (hd : ∀ kv ∈ d, rowUPC kv.2 = some kv.1) (hr : rowUPC r = some u) :
    ∀ kv ∈ aput d u r, rowUPC kv.2 = some kv.1 := by
  intro kv hkv
  unfold aput at hkv
  split at hkv
  · rcases List.mem_map.mp hkv with ⟨e, he, heq⟩
    by_cases hb : (e.1 == u) = true
    · rw [if_pos hb] at heq
      subst heq
      exact hr
    · rw [if_neg hb] at heq
      subst heq
      exact hd e he
  · rcases List.mem_append.mp hkv with h1 | h2
    · exact hd kv h1
    · rw [List.mem_singleton.mp h2]
      exact hr

theorem foldl_aput_upc : ∀ (rows : List Row) (d : List (String × Row)),
    (∀ kv ∈ d, rowUPC kv.2 = some kv.1) →
    ∀ kv ∈ rows.foldl (fun d r => match rowUPC r with
        | some u => aput d u r
        | none => d) d,
      rowUPC kv.2 = some kv.1 := by
  intro rows
  induction rows with
  | nil => intro d hd kv hkv; exact hd kv hkv
  | cons r t ih =>
    intro d hd kv hkv
    simp only [List.foldl_cons] at hkv
    rcases hru : rowUPC r with _ | u
    · rw [hru] at hkv
      exact ih d hd kv hkv
    · rw [hru] at hkv
      exact ih _ (aput_upc hd hru) kv hkv

theorem lookup_in_inventory_upc (inv : List Row) (bs : List String) :
    ∀ kv ∈ lookup_in_inventory true inv bs, rowUPC kv.2 = some kv.1 := by
  intro kv hkv
  unfold lookup_in_inventory at hkv
  split at hkv
  · cases hkv
  · split at hkv
    · cases hkv
    · exact foldl_aput_upc _ [] (by intro kv h; cases h) kv hkv

theorem aget_mem {α : Type} {d : List (String × α)} {b : String} {v : α}
    (h : aget d b = some v) : (b, v) ∈ d := by
  unfold aget at h
  rcases hf : d.find? (fun e => e.1 == b) with _ | e
  · rw [hf] at h; cases h
  · rw [hf] at h
    simp only [Option.map_some, Option.map_some', Option.some_inj] at h
    have hm := List.mem_of_find?_eq_some hf
    have hp := List.find?_some hf
    have hk : e.1 = b := by simpa using hp
    cases e with
    | mk k w =>
      simp only at hk h
      subst hk
      subst h
      exact hm

theorem rowUPC_eq_some {r : Row} {b : String} (h : rowUPC r = some b) :
    aget r "ProductUPC" = some (Value.str b) := by
  unfold rowUPC at h
  rcases hx : aget r "ProductUPC" with _ | v
  · rw [hx] at h; cases h
  · rw [hx] at h
    cases v with
    | null => cases h
    | num q => cases h
    | str s =>
      simp only [Option.some_inj] at h
      subst h
      rfl

theorem aget_proj (product : Row) (key : String) (v : Value)
    (hv : aget product key = some v) :
    ∀ (common : List String), key ∈ common →
      aget (common.map (fun col => (col, (aget product col).getD Value.null)))
        key = some v := by
  intro common
  induction common with
  | nil => intro h; cases h
  | cons c t ih =>
    intro h
    by_cases hc : (c == key) = true
    · have hck : c = key := by simpa using hc
      subst hck
      have hhead : aget (List.map
          (fun col => (col, (aget product col).getD Value.null)) (c :: t)) c =
          some ((aget product c).getD Value.null) := by
        unfold aget
        rw [List.map_cons, List.find?_cons_of_pos _ (by simp)]
        rfl
      rw [hhead, hv]
      rfl
    · have hmem : key ∈ t := by
        rcases List.mem_cons.mp h with h1 | h2
        · exact absurd (by simp [h1]) hc
        · exact h2
      have hih := ih hmem
      unfold aget at hih ⊢
      rw [List.map_cons, List.find?_cons_of_neg _ (by simpa using hc)]
      exact hih

/-! ### Catalog row counting -/

theorem countUPC_append (a c : List Row) (b : String) :
    countUPC (a ++ c) b = countUPC a b + countUPC c b := by
  simp [countUPC, List.filter_append]

theorem countUPC_pos {its : List Row} {b : String} {r : Row}
    (hm : r ∈ its) (hu : rowUPC r = some b) : 1 ≤ countUPC its b := by
  have hf : r ∈ its.filter (fun r => rowUPC r == some b) :=
    List.mem_filter.mpr ⟨hm, by simp [hu]⟩
  have := List.length_pos.mpr (List.ne_nil_of_mem hf)
  unfold countUPC
  omega

/-! ### Healing-sync claims -/

/-- C6 (amended): provided at least one input barcode is found in the
secondary source (with configuration present and the inventory source
enabled), every input barcode receives its own outcome — not found in the
secondary source, insert rejected because of zero overlapping writable
columns, or copied — and one barcode's failure never prevents the other
barcodes from being attempted.  When the inventory lookup finds none of the
input barcodes, the call instead returns one global error and classifies no
barcode (likewise when configuration is missing or the source disabled). -/
theorem C6_theorem (c : Config) (inv : List Row) (bo : BackOfficeDB)
    (bs : List String) (b : String)
    (hen : c.inventoryEnabled = true)
    (hne : (lookup_in_inventory true inv bs).isEmpty = false)
    (hb : b ∈ bs) :
    (aget (lookup_in_inventory true inv bs) b = none →
      (b, "Not found in inventory") ∈
        (copy_products_from_inventory (some c) inv bo bs).1.failed) ∧
    (∀ product, aget (lookup_in_inventory true inv bs) b = some product →
      ((bo.itemsCols.filter (fun col => ahas product col)).isEmpty = true →
        (b, "No matching columns between databases") ∈
          (copy_products_from_inventory (some c) inv bo bs).1.failed) ∧
      ((bo.itemsCols.filter (fun col => ahas product col)).isEmpty = false →
        b ∈ (copy_products_from_inventory (some c) inv bo bs).1.copied)) := by
  rw [copy_products_eq c inv bo bs hen hne]
  refine ⟨?_, ?_⟩
  · intro hag
    exact List.mem_filterMap.mpr ⟨b, hb, by simp [hag]⟩
  · intro product hag
    refine ⟨?_, ?_⟩
    · intro hcm
      exact List.mem_filterMap.mpr ⟨b, hb, by simp [hag, hcm]⟩
    · intro hcm
      exact List.mem_filter.mpr ⟨hb, by simp [hag, hcm]⟩

def C6_bo : BackOfficeDB := ⟨["ProductUPC"], [], [], [], [], 1⟩

/-- Counterexample to C6 as stated: with no input barcode found in the
secondary source, copy_products_from_inventory returns a single global error
and classifies no barcode — "X" appears in neither the copied nor the failed
list, so not every input barcode receives a per-barcode outcome. -/
theorem C6_counterexample :
    (copy_products_from_inventory (some ⟨true⟩) [] C6_bo ["X"]).1.error =
      some "No products found in inventory for given barcodes" ∧
    (copy_products_from_inventory (some ⟨true⟩) [] C6_bo ["X"]).1.copied = [] ∧
    (copy_products_from_inventory (some ⟨true⟩) [] C6_bo ["X"]).1.failed = [] :=
  ⟨rfl, rfl, rfl⟩

def C6_inv : List Row :=
  [[("ProductUPC", Value.str "B1"), ("UnitPrice", Value.num 5)]]

def C6_bo2 : BackOfficeDB := ⟨["ProductUPC", "UnitPrice"], [], [], [], [], 1⟩

/-- Witness for C6 (amended) at concrete data: barcode X, requested together
with the found barcode B1, is individually classified not-found. -/
theorem C6_witness :
    ("X", "Not found in inventory") ∈
      (copy_products_from_inventory (some ⟨true⟩) C6_inv C6_bo2
        ["B1", "X"]).1.failed :=
  (C6_theorem ⟨true⟩ C6_inv C6_bo2 ["B1", "X"] "X" rfl (by decide)
      (by decide)).1 (by decide)

def C4_inv : List Row :=
  [[("ProductUPC", Value.str "B1"), ("UnitPrice", Value.num 5)]]

def C4_bo : BackOfficeDB := ⟨["ProductUPC", "UnitPrice"], [], [], [], [], 1⟩

/-- Counterexample to C4 as stated: running the healing copy twice on the
same singleton barcode set reports the barcode as copied again on the second
run (instead of not found / no-op) and leaves two catalog rows carrying that
barcode — a duplicate. -/
theorem C4_counterexample :
    (copy_products_from_inventory (some ⟨true⟩) C4_inv
      (copy_products_from_inventory (some ⟨true⟩) C4_inv C4_bo ["B1"]).2
      ["B1"]).1.copied = ["B1"] ∧
    countUPC (copy_products_from_inventory (some ⟨true⟩) C4_inv
      (copy_products_from_inventory (some ⟨true⟩) C4_inv C4_bo ["B1"]).2
      ["B1"]).2.items "B1" = 2 := by
  refine ⟨by decide, by decide⟩

/-- C4 (amended): copy_products_from_inventory never consults the primary
catalog, so a second run over the same barcode set re-copies every barcode
still found in the secondary source: such a barcode is reported copied by
both runs and each run appends another catalog row carrying it, producing a
duplicate rather than a no-op.  Only the pipeline's restriction of the
input to barcodes absent from the primary catalog prevents duplicates. -/
theorem C4_theorem (c : Config) (inv : List Row) (bo : BackOfficeDB)
    (bs : List String) (b : String) (product : Row)
    (hen : c.inventoryEnabled = true)
    (hb : b ∈ bs)
    (hag : aget (lookup_in_inventory true inv bs) b = some product)
    (hcol : "ProductUPC" ∈ bo.itemsCols.filter (fun col => ahas product col)) :
    b ∈ (copy_products_from_inventory (some c) inv bo bs).1.copied ∧
    b ∈ (copy_products_from_inventory (some c) inv
          (copy_products_from_inventory (some c) inv bo bs).2 bs).1.copied ∧
    countUPC (copy_products_from_inventory (some c) inv
        (copy_products_from_inventory (some c) inv bo bs).2 bs).2.items b ≥
      countUPC bo.items b + 2 := by
  have hne : (lookup_in_inventory true inv bs).isEmpty = false := by
    rcases hl : lookup_in_inventory true inv bs with _ | ⟨kv, t⟩
    · rw [hl] at hag
      simp [aget] at hag
    · simp [hl]
  have hcm : ((bo.itemsCols.filter (fun col => ahas product col)).isEmpty)
      = false := by
    rcases h' : bo.itemsCols.filter (fun col => ahas product col) with _ | ⟨x, xs⟩
    · rw [h'] at hcol; cases hcol
    · simp [h']
  have hupc : rowUPC product = some b :=
    lookup_in_inventory_upc inv bs (b, product) (aget_mem hag)
  have hagp : aget product "ProductUPC" = some (Value.str b) :=
    rowUPC_eq_some hupc
  have hproj : rowUPC ((bo.itemsCols.filter (fun col => ahas product col)).map
      (fun col => (col, (aget product col).getD Value.null))) = some b := by
    unfold rowUPC
    rw [aget_proj product "ProductUPC" (Value.str b) hagp _ hcol]
  have hmemins : ((bo.itemsCols.filter (fun col => ahas product col)).map
      (fun col => (col, (aget product col).getD Value.null))) ∈
        insertedList bo.itemsCols (lookup_in_inventory true inv bs) bs :=
    List.mem_filterMap.mpr ⟨b, hb, by simp [hag, hcm]⟩
  have hpos : 1 ≤ countUPC
      (insertedList bo.itemsCols (lookup_in_inventory true inv bs) bs) b :=
    countUPC_pos hmemins hproj
  rw [copy_products_eq c inv bo bs hen hne,
    copy_products_eq c inv _ bs hen hne]
  refine ⟨?_, ?_, ?_⟩
  · exact List.mem_filter.mpr ⟨hb, by simp [hag, hcm]⟩
  · exact List.mem_filter.mpr ⟨hb, by simp [hag, hcm]⟩
  · show countUPC ((bo.items ++
        insertedList bo.itemsCols (lookup_in_inventory true inv bs) bs) ++
        insertedList bo.itemsCols (lookup_in_inventory true inv bs) bs) b ≥
      countUPC bo.items b + 2
    rw [countUPC_append, countUPC_append]
    omega

/-- Witness for C4 (amended) at concrete data: B1 is copied by both runs and
the catalog row count for B1 rises from 0 by at least 2. -/
theorem C4_witness :
    "B1" ∈ (copy_products_from_inventory (some ⟨true⟩) C4_inv C4_bo
      ["B1"]).1.copied ∧
    countUPC (copy_products_from_inventory (some ⟨true⟩) C4_inv
        (copy_products_from_inventory (some ⟨true⟩) C4_inv C4_bo ["B1"]).2
        ["B1"]).2.items "B1" ≥ countUPC C4_bo.items "B1" + 2 :=
  ⟨(C4_theorem ⟨true⟩ C4_inv C4_bo ["B1"] "B1"
      [("ProductUPC", Value.str "B1"), ("UnitPrice", Value.num 5)]
      rfl (by decide) (by decide) (by decide)).1,
   (C4_theorem ⟨true⟩ C4_inv C4_bo ["B1"] "B1"
      [("ProductUPC", Value.str "B1"), ("UnitPrice", Value.num 5)]
      rfl (by decide) (by decide) (by decide)).2.2⟩

/-! ### Pending-set / fan-out claims -/

theorem convertAllStep_count : ∀ (l : List PendingEntry)
    (acc : ConvertAllResults × SysState),
    (l.foldl convertAllStep acc).1.converted +
      (l.foldl convertAllStep acc).1.failed =
    acc.1.converted + acc.1.failed + l.length := by
  intro l
  induction l with
  | nil => intro acc; simp
  | cons e t ih =>
    intro acc
    simp only [List.foldl_cons, List.length_cons]
    rw [ih]
    by_cases hr : (convert_picklist acc.2 e.id).1.1 = true
    · simp [convertAllStep, hr]
      omega
    · simp [convertAllStep, hr]
      omega

def C1_st : SysState :=
  ⟨⟨[⟨1, some 5, some "7", true, none⟩], [], some ⟨false⟩,
    some ⟨7, 1, "PL", 60⟩⟩,
   ⟨[1], []⟩, ⟨[], [], [], [], [], 1⟩, []⟩

/-- Counterexample to C1 as stated: picklist 1 has a successful
ConversionRecord and is not archived, yet it still appears in the result of
the pending-set computation (flagged converted), and convert_all_pending
does attempt to convert it again — the attempt shows up in the error list. -/
theorem C1_counterexample :
    get_pending_picklists C1_st.ledger C1_st.shipper =
      [{ id := 1, is_converted := true }] ∧
    (convert_all_pending C1_st).1.errors = [(1, some (noEligibleMsg 1))] :=
  ⟨by decide, by decide⟩

/-- C1 (amended): a picklist with a successful ConversionRecord that is not
archived still appears in the pending-set computation, flagged is_converted
= true — only archived picklists are excluded — and convert_all_pending
still attempts a conversion for every pending entry: the converted and
failed outcome counts together equal the size of the pending set, so
already-converted picklists are re-attempted too. -/
theorem C1_theorem (st : SysState) (pid : Nat) (c : Config)
    (hc : st.ledger.config = some c)
    (hmem : pid ∈ st.shipper.pick_lists)
    (hconv : ∃ r ∈ st.ledger.conversion_tracking,
      r.pick_list_id = pid ∧ r.success = true)
    (harch : pid ∉ st.ledger.archived_picklists) :
    ({ id := pid, is_converted := true } : PendingEntry) ∈
      get_pending_picklists st.ledger st.shipper ∧
    (convert_all_pending st).1.converted + (convert_all_pending st).1.failed =
      (get_pending_picklists st.ledger st.shipper).length := by
  constructor
  · unfold get_pending_picklists
    apply List.mem_map.mpr
    refine ⟨pid, ?_, ?_⟩
    · apply List.mem_filter.mpr
      refine ⟨hmem, ?_⟩
      cases hq : (get_archived_picklist_ids st.ledger).contains pid with
      | false => simp [hq]
      | true => exact absurd (List.elem_iff.mp hq) harch
    · have hcv : pid ∈ get_converted_picklist_ids st.ledger :=
        (mem_converted_iff st.ledger pid).mpr hconv
      simp [hcv]
  · unfold convert_all_pending
    rw [hc]
    rw [convertAllStep_count]
    simp

/-- Witness for C1 (amended) at the concrete state of the counterexample:
converted, unarchived picklist 1 is listed as pending with the flag set, and
the attempt counts cover the whole pending set. -/
theorem C1_witness :
    ({ id := 1, is_converted := true } : PendingEntry) ∈
      get_pending_picklists C1_st.ledger C1_st.shipper ∧
    (convert_all_pending C1_st).1.converted +
      (convert_all_pending C1_st).1.failed =
      (get_pending_picklists C1_st.ledger C1_st.shipper).length :=
  C1_theorem C1_st 1 ⟨false⟩ rfl (by decide)
    ⟨⟨1, some 5, some "7", true, none⟩, by decide, rfl, rfl⟩ (by decide)

/-! ### State preservation through healing -/

theorem copy_preserves (cfg : Option Config) (inv : List Row)
    (bo : BackOfficeDB) (bs : List String) :
    (copy_products_from_inventory cfg inv bo bs).2.itemsCols = bo.itemsCols ∧
    (copy_products_from_inventory cfg inv bo bs).2.customers = bo.customers ∧
    (copy_products_from_inventory cfg inv bo bs).2.quotations =
      bo.quotations ∧
    (copy_products_from_inventory cfg inv bo bs).2.quotationDetails =
      bo.quotationDetails ∧
    (copy_products_from_inventory cfg inv bo bs).2.nextQuotationId =
      bo.nextQuotationId := by
  rcases cfg with _ | c
  · exact ⟨rfl, rfl, rfl, rfl, rfl⟩
  · by_cases h1 : c.inventoryEnabled
    · by_cases h2 : (lookup_in_inventory true inv bs).isEmpty
      · simp [copy_products_from_inventory, h1, h2]
      · simp [copy_products_from_inventory, h1, h2, foldl_copyStep]
    · simp [copy_products_from_inventory, h1]

theorem auto_sync_preserves (cfg : Option Config) (inv : List Row)
    (bo : BackOfficeDB) (ms : List String) :
    (auto_sync_from_inventory cfg inv bo ms).2.itemsCols = bo.itemsCols ∧
    (auto_sync_from_inventory cfg inv bo ms).2.customers = bo.customers ∧
    (auto_sync_from_inventory cfg inv bo ms).2.quotations = bo.quotations ∧
    (auto_sync_from_inventory cfg inv bo ms).2.quotationDetails =
      bo.quotationDetails ∧
    (auto_sync_from_inventory cfg inv bo ms).2.nextQuotationId =
      bo.nextQuotationId := by
  rcases cfg with _ | c
  · by_cases h0 : ms.isEmpty
    · simp [auto_sync_from_inventory, h0]
    · simp [auto_sync_from_inventory, h0]
  · by_cases h0 : ms.isEmpty
    · simp [auto_sync_from_inventory, h0]
    · by_cases h1 : c.inventoryEnabled
      · by_cases h2 : (lookup_in_inventory true inv ms).isEmpty
        · simp [auto_sync_from_inventory, h0, h1, h2]
        · have hcp := copy_preserves (some c) inv bo
            ((lookup_in_inventory true inv ms).map (fun e => e.1))
          simp [auto_sync_from_inventory, h0, h1, h2, hcp.1, hcp.2.1,
            hcp.2.2.1, hcp.2.2.2.1, hcp.2.2.2.2]
      · simp [auto_sync_from_inventory, h0, h1]

theorem healPhase_preserves (cfg : Option Config) (inv : List Row)
    (bo : BackOfficeDB) (products : List PickListProduct) :
    (healPhase cfg inv bo products).2.2.customers = bo.customers ∧
    (healPhase cfg inv bo products).2.2.quotations = bo.quotations ∧
    (healPhase cfg inv bo products).2.2.quotationDetails =
      bo.quotationDetails ∧
    (healPhase cfg inv bo products).2.2.nextQuotationId =
      bo.nextQuotationId := by
  unfold healPhase
  by_cases h0 : (missingOf (boBuildMap bo.items (barcodes_to_check products) [])
      products).isEmpty
  · simp [h0]
  · simp only [h0, Bool.false_eq_true, if_false]
    have hs := auto_sync_preserves cfg inv bo
      (missingOf (boBuildMap bo.items (barcodes_to_check products) []) products)
    by_cases h1 : 0 < (auto_sync_from_inventory cfg inv bo
        (missingOf (boBuildMap bo.items (barcodes_to_check products) [])
          products)).1.synced_count
    · simp only [h1, if_true]
      exact ⟨hs.2.1, hs.2.2.1, hs.2.2.2.1, hs.2.2.2.2⟩
    · simp only [h1, if_false]
      exact ⟨hs.2.1, hs.2.2.1, hs.2.2.2.1, hs.2.2.2.2⟩

/-! ### Unmatched-message characterization -/

theorem finalUnmatched_complete (m : List (String × Row)) (rm : Bool)
    (products : List PickListProduct) :
    (∀ p ∈ products, getBarcode p = none →
      describe_no_barcode p ∈ finalUnmatched m rm products) ∧
    (∀ p ∈ products, ∀ b, getBarcode p = some b → aget m b = none →
      describe_unmatched b p ∈ finalUnmatched m rm products) := by
  constructor
  · intro p hp hb
    cases rm
    · exact List.mem_append.mpr
        (Or.inl (List.mem_filterMap.mpr ⟨p, hp, by simp [hb]⟩))
    · exact List.mem_filterMap.mpr ⟨p, hp, by simp [hb]⟩
  · intro p hp b hb hnm
    cases rm
    · exact List.mem_append.mpr
        (Or.inr (List.mem_filterMap.mpr ⟨p, hp, by simp [hb, hnm]⟩))
    · exact List.mem_filterMap.mpr ⟨p, hp, by simp [hb, hnm]⟩

theorem finalUnmatched_sound (m : List (String × Row)) (rm : Bool)
    (products : List PickListProduct) :
    ∀ s ∈ finalUnmatched m rm products, ∃ p ∈ products,
      (getBarcode p = none ∧ s = describe_no_barcode p) ∨
      ∃ b, getBarcode p = some b ∧ aget m b = none ∧
        s = describe_unmatched b p := by
  intro s hs
  have hcase : ∃ p ∈ products,
      (match getBarcode p with
        | none => some (describe_no_barcode p)
        | some b => if (aget m b).isSome then none
                    else some (describe_unmatched b p)) = some s ∨
      (match getBarcode p with
        | none => some (describe_no_barcode p)
        | some _ => none) = some s ∨
      (match getBarcode p with
        | none => none
        | some b => if (aget m b).isSome then none
                    else some (describe_unmatched b p)) = some s := by
    cases rm
    · rcases List.mem_append.mp hs with h1 | h2
      · rcases List.mem_filterMap.mp h1 with ⟨p, hp, hf⟩
        exact ⟨p, hp, Or.inr (Or.inl hf)⟩
      · rcases List.mem_filterMap.mp h2 with ⟨p, hp, hf⟩
        exact ⟨p, hp, Or.inr (Or.inr hf)⟩
    · rcases List.mem_filterMap.mp hs with ⟨p, hp, hf⟩
      exact ⟨p, hp, Or.inl hf⟩
  rcases hcase with ⟨p, hp, hf⟩
  refine ⟨p, hp, ?_⟩
  rcases hgb : getBarcode p with _ | b
  · rcases hf with hf | hf | hf <;> rw [hgb] at hf <;>
      simp only [Option.some_inj] at hf
    · exact Or.inl ⟨rfl, hf.symm⟩
    · exact Or.inl ⟨rfl, hf.symm⟩
    · cases hf
  · right
    have hval : (if (aget m b).isSome then none
        else some (describe_unmatched b p)) = some s := by
      rcases hf with hf | hf | hf <;> rw [hgb] at hf
      · exact hf
      · cases hf
      · exact hf
    by_cases hz : (aget m b).isSome
    · rw [if_pos hz] at hval; cases hval
    · rw [if_neg hz] at hval
      have hnone : aget m b = none := by
        rcases hx : aget m b with _ | v
        · rfl
        · rw [hx] at hz; simp at hz
      simp only [Option.some_inj] at hval
      exact ⟨b, rfl, hnone, hval.symm⟩

/-- C2 (amended): when any eligible line remains unmatched after the healing
re-match, create_quotation fails with the aggregated message and inserts no
quotation header and no quotation detail row (the quotation store parts of
the BackOffice state are exactly as before the call); the message lists
every unmatched line — no-barcode lines by product name, unmatched-barcode
lines by barcode and product name — and consists solely of such lines, so
lines that did match are not reported. -/
theorem C2_theorem (cfg : Option Config) (inv : List Row) (bo : BackOfficeDB)
    (pid : Nat) (products : List PickListProduct) (cid : Nat) (status : Int)
    (tp : String) (m : List (String × Row)) (rm : Bool) (bo1 : BackOfficeDB)
    (hh : healPhase cfg inv bo products = (m, rm, bo1))
    (hu : finalUnmatched m rm products ≠ []) :
    create_quotation cfg inv bo pid products cid status tp =
      (⟨false, none, none, some ("Unable to match products: " ++
        String.intercalate ", " (finalUnmatched m rm products))⟩, bo1) ∧
    bo1.quotations = bo.quotations ∧
    bo1.quotationDetails = bo.quotationDetails ∧
    bo1.nextQuotationId = bo.nextQuotationId ∧
    (∀ p ∈ products, getBarcode p = none →
      describe_no_barcode p ∈ finalUnmatched m rm products) ∧
    (∀ p ∈ products, ∀ b, getBarcode p = some b → aget m b = none →
      describe_unmatched b p ∈ finalUnmatched m rm products) ∧
    (∀ s ∈ finalUnmatched m rm products, ∃ p ∈ products,
      (getBarcode p = none ∧ s = describe_no_barcode p) ∨
      ∃ b, getBarcode p = some b ∧ aget m b = none ∧
        s = describe_unmatched b p) := by
  have hie : (finalUnmatched m rm products).isEmpty = false := by
    rcases h' : finalUnmatched m rm products with _ | ⟨x, xs⟩
    · exact absurd h' hu
    · rfl
  have hp := healPhase_preserves cfg inv bo products
  rw [hh] at hp
  refine ⟨?_, hp.2.1, hp.2.2.1, hp.2.2.2,
    (finalUnmatched_complete m rm products).1,
    (finalUnmatched_complete m rm products).2,
    finalUnmatched_sound m rm products⟩
  simp [create_quotation, hh, hie]

def C2_bo : BackOfficeDB :=
  ⟨["ProductUPC", "UnitPrice", "UnitCost"],
   [[("ProductUPC", Value.str "B1"), ("UnitPrice", Value.num 10),
     ("UnitCost", Value.num 6)]],
   [⟨7⟩], [], [], 1⟩

def C2_products : List PickListProduct :=
  [⟨some "B1", "AAA", some 1⟩, ⟨some "B2", "BBB", some 1⟩]

/-- Counterexample to C2 as stated: line AAA (barcode B1) matches and line
BBB (barcode B2) does not; the conversion fails and the message reports only
the unmatched line — neither the matched line's name AAA nor its barcode B1
occurs anywhere in the message, so the message does not include lines that
did match. -/
theorem C2_counterexample :
    (create_quotation (some ⟨false⟩) [] C2_bo 42 C2_products 7 1 "PL").1 =
      ⟨false, none, none, some ("Unable to match products: Barcode " ++ sqt ++
        "B2" ++ sqt ++ " (Product: BBB)")⟩ ∧
    hasSub "AAA".toList ("Unable to match products: Barcode " ++ sqt ++
      "B2" ++ sqt ++ " (Product: BBB)").toList = false ∧
    hasSub "B1".toList ("Unable to match products: Barcode " ++ sqt ++
      "B2" ++ sqt ++ " (Product: BBB)").toList = false ∧
    (create_quotation (some ⟨false⟩) [] C2_bo 42 C2_products 7 1 "PL").2.quotations
      = [] ∧
    (create_quotation (some ⟨false⟩) [] C2_bo 42 C2_products 7 1
      "PL").2.quotationDetails = [] :=
  ⟨by decide, by decide, by decide, by decide, by decide⟩

/-- Witness for C2 (amended) at the concrete two-line picklist: the heal
phase leaves B2 unmatched, the call fails with the aggregated message,
nothing is inserted, and the unmatched line is listed. -/
theorem C2_witness :
    create_quotation (some ⟨false⟩) [] C2_bo 42 C2_products 7 1 "PL" =
      (⟨false, none, none, some ("Unable to match products: " ++
        String.intercalate ", " (finalUnmatched
          (boBuildMap C2_bo.items (barcodes_to_check C2_products) []) false
          C2_products))⟩,
       C2_bo) ∧
    describe_unmatched "B2" ⟨some "B2", "BBB", some 1⟩ ∈
      finalUnmatched (boBuildMap C2_bo.items (barcodes_to_check C2_products) [])
        false C2_products :=
  ⟨(C2_theorem (some ⟨false⟩) [] C2_bo 42 C2_products 7 1 "PL"
      (boBuildMap C2_bo.items (barcodes_to_check C2_products) []) false C2_bo
      (by decide) (by decide)).1,
   (C2_theorem (some ⟨false⟩) [] C2_bo 42 C2_products 7 1 "PL"
      (boBuildMap C2_bo.items (barcodes_to_check C2_products) []) false C2_bo
      (by decide) (by decide)).2.2.2.2.2.1
     ⟨some "B2", "BBB", some 1⟩ (by decide) "B2" (by decide) (by decide)⟩

/-! ### Full-match success path -/

theorem all_matched_aux (m : List (String × Row))
    (products : List PickListProduct)
    (hall : ∀ p ∈ products, ∃ b, getBarcode p = some b ∧
      (aget m b).isSome = true) :
    missingOf m products = [] ∧ initialUnmatched products = [] ∧
    unmatchedFirstPass m products = [] ∧
    (matchedOf m products).length = products.length := by
  have h1 : missingOf m products = [] := by
    unfold missingOf
    rw [List.filterMap_eq_nil_iff]
    intro p hp
    rcases hall p hp with ⟨b, hb, hi⟩
    simp [hb, hi]
  have h2 : initialUnmatched products = [] := by
    unfold initialUnmatched
    rw [List.filterMap_eq_nil_iff]
    intro p hp
    rcases hall p hp with ⟨b, hb, _⟩
    simp [hb]
  have h3 : unmatchedFirstPass m products = [] := by
    unfold unmatchedFirstPass
    rw [h2, List.nil_append, List.filterMap_eq_nil_iff]
    intro p hp
    rcases hall p hp with ⟨b, hb, hi⟩
    simp [hb, hi]
  have h4 : (matchedOf m products).length = products.length := by
    apply length_filterMap_all_some
    intro p hp
    rcases hall p hp with ⟨b, hb, hi⟩
    rcases Option.isSome_iff_exists.mp hi with ⟨item, hit⟩
    simp [hb, hit]
  exact ⟨h1, h2, h3, h4⟩

theorem healPhase_no_missing (cfg : Option Config) (inv : List Row)
    (bo : BackOfficeDB) (products : List PickListProduct)
    (h : missingOf (boBuildMap bo.items (barcodes_to_check products) [])
      products = []) :
    healPhase cfg inv bo products =
      (boBuildMap bo.items (barcodes_to_check products) [], false, bo) := by
  simp [healPhase, h]


/-- C3: when every eligible line carries a barcode that matches the primary
catalog (the pre-existing case, so no healing runs) and the billing customer
exists, create_quotation succeeds, creates exactly one detail row per line
with extended price = quantity × unit price, extended cost = quantity × unit
cost, and original price equal to the unit price, and writes the header's
total as exactly the sum of the inserted detail extended prices. -/
theorem C3_theorem (cfg : Option Config) (inv : List Row) (bo : BackOfficeDB)
    (pid : Nat) (products : List PickListProduct) (cid : Nat) (status : Int)
    (tp : String) (cust : Customer) (m : List (String × Row))
    (hm : m = boBuildMap bo.items (barcodes_to_check products) [])
    (hall : ∀ p ∈ products, ∃ b, getBarcode p = some b ∧
      (aget m b).isSome = true)
    (hcust : get_customer_data bo cid = some cust)
    (hfreshD : ∀ dd ∈ bo.quotationDetails,
      dd.quotationID ≠ bo.nextQuotationId)
    (hfreshQ : ∀ q ∈ bo.quotations, q.quotationID ≠ bo.nextQuotationId) :
    (create_quotation cfg inv bo pid products cid status tp).1 =
      ⟨true, some bo.nextQuotationId,
        some (toString (get_next_quotation_number bo)), none⟩ ∧
    (create_quotation cfg inv bo pid products cid status tp).2.quotationDetails
      = bo.quotationDetails ++
        (matchedOf m products).map (mkDetail bo.nextQuotationId) ∧
    ((matchedOf m products).map (mkDetail bo.nextQuotationId)).length =
      products.length ∧
    (∀ dd ∈ (matchedOf m products).map (mkDetail bo.nextQuotationId),
      dd.quotationID = bo.nextQuotationId ∧
      dd.extendedPrice = dd.qty * dd.unitPrice ∧
      dd.extendedCost = dd.qty * dd.unitCost ∧
      dd.originalPrice = dd.unitPrice ∧
      dd.actExtendedPrice = dd.extendedPrice) ∧
    (∃ hq : Quotation,
      (create_quotation cfg inv bo pid products cid status tp).2.quotations =
        bo.quotations ++ [hq] ∧
      hq.quotationID = bo.nextQuotationId ∧
      hq.quotationTotal = some ((((matchedOf m products).map
        (mkDetail bo.nextQuotationId)).map
          (fun dd => dd.extendedPrice)).sum)) := by
  subst hm
  obtain ⟨h1, _h2, h3, h4⟩ := all_matched_aux _ products hall
  have hh := healPhase_no_missing cfg inv bo products h1
  have hfu : finalUnmatched
      (boBuildMap bo.items (barcodes_to_check products) []) false products
      = [] := by
    unfold finalUnmatched
    simp [h3]
  have hcq : create_quotation cfg inv bo pid products cid status tp =
      (⟨true, some bo.nextQuotationId,
        some (toString (get_next_quotation_number bo)), none⟩,
       { bo with
          quotations := (bo.quotations ++
            [quotationHeader bo.nextQuotationId
              (toString (get_next_quotation_number bo))
              (tp ++ " " ++ toString pid) cid status]).map
            (setTotal bo.nextQuotationId
              (((bo.quotationDetails ++
                  (matchedOf (boBuildMap bo.items
                    (barcodes_to_check products) []) products).map
                    (mkDetail bo.nextQuotationId)).filter
                (fun d => d.quotationID == bo.nextQuotationId)).map
                  (fun d => d.extendedPrice)).sum),
          quotationDetails := bo.quotationDetails ++
            (matchedOf (boBuildMap bo.items (barcodes_to_check products) [])
              products).map (mkDetail bo.nextQuotationId),
          nextQuotationId := bo.nextQuotationId + 1 }) := by
    simp only [create_quotation, hh, hfu, List.isEmpty_nil, Bool.not_true,
      Bool.false_eq_true, if_false, hcust]
  have hmemnd : ∀ dd ∈ (matchedOf (boBuildMap bo.items
      (barcodes_to_check products) []) products).map
        (mkDetail bo.nextQuotationId),
      dd.quotationID = bo.nextQuotationId := by
    intro dd hdd
    rcases List.mem_map.mp hdd with ⟨pr, _, rfl⟩
    rfl
  have hfo : bo.quotationDetails.filter
      (fun d => d.quotationID == bo.nextQuotationId) = [] :=
    List.filter_eq_nil_iff.mpr (fun dd hdd => by
      simpa using hfreshD dd hdd)
  have hfn : ((matchedOf (boBuildMap bo.items (barcodes_to_check products) [])
      products).map (mkDetail bo.nextQuotationId)).filter
        (fun d => d.quotationID == bo.nextQuotationId) =
      (matchedOf (boBuildMap bo.items (barcodes_to_check products) [])
        products).map (mkDetail bo.nextQuotationId) :=
    List.filter_eq_self.mpr (fun dd hdd => by simp [hmemnd dd hdd])
  refine ⟨?_, ?_, ?_, ?_, ?_⟩
  · rw [hcq]
  · rw [hcq]
  · rw [List.length_map]
    exact h4
  · intro dd hdd
    rcases List.mem_map.mp hdd with ⟨pr, _, rfl⟩
    exact ⟨rfl, rfl, rfl, rfl, rfl⟩
  · have hsum : (((bo.quotationDetails ++
        (matchedOf (boBuildMap bo.items (barcodes_to_check products) [])
          products).map (mkDetail bo.nextQuotationId)).filter
        (fun d => d.quotationID == bo.nextQuotationId)).map
          (fun d => d.extendedPrice)).sum =
        (((matchedOf (boBuildMap bo.items (barcodes_to_check products) [])
          products).map (mkDetail bo.nextQuotationId)).map
            (fun dd => dd.extendedPrice)).sum := by
      rw [List.filter_append, hfo, hfn, List.nil_append]
    have hcond : ((quotationHeader bo.nextQuotationId
        (toString (get_next_quotation_number bo))
        (tp ++ " " ++ toString pid) cid status).quotationID ==
          bo.nextQuotationId) = true := by
      simp [quotationHeader]
    have hhd : setTotal bo.nextQuotationId
        (((bo.quotationDetails ++
            (matchedOf (boBuildMap bo.items (barcodes_to_check products) [])
              products).map (mkDetail bo.nextQuotationId)).filter
          (fun d => d.quotationID == bo.nextQuotationId)).map
            (fun d => d.extendedPrice)).sum
        (quotationHeader bo.nextQuotationId
          (toString (get_next_quotation_number bo))
          (tp ++ " " ++ toString pid) cid status) =
        { quotationHeader bo.nextQuotationId
            (toString (get_next_quotation_number bo))
            (tp ++ " " ++ toString pid) cid status with
          quotationTotal := some ((((matchedOf (boBuildMap bo.items
            (barcodes_to_check products) []) products).map
              (mkDetail bo.nextQuotationId)).map
                (fun dd => dd.extendedPrice)).sum) } := by
      unfold setTotal
      simp only [hcond, if_true, hsum]
    have hold : bo.quotations.map (setTotal bo.nextQuotationId
        (((bo.quotationDetails ++
            (matchedOf (boBuildMap bo.items
              (barcodes_to_check products) []) products).map
              (mkDetail bo.nextQuotationId)).filter
          (fun d => d.quotationID == bo.nextQuotationId)).map
            (fun d => d.extendedPrice)).sum) = bo.quotations :=
      map_eq_self_of_mem (fun q hq => by simp [setTotal, hfreshQ q hq])
    refine ⟨{ quotationHeader bo.nextQuotationId
        (toString (get_next_quotation_number bo))
        (tp ++ " " ++ toString pid) cid status with
      quotationTotal := some ((((matchedOf (boBuildMap bo.items
        (barcodes_to_check products) []) products).map
          (mkDetail bo.nextQuotationId)).map
            (fun dd => dd.extendedPrice)).sum) }, ?_, rfl, rfl⟩
    rw [hcq]
    show (bo.quotations ++ [quotationHeader bo.nextQuotationId
        (toString (get_next_quotation_number bo))
        (tp ++ " " ++ toString pid) cid status]).map
      (setTotal bo.nextQuotationId
        (((bo.quotationDetails ++
            (matchedOf (boBuildMap bo.items
              (barcodes_to_check products) []) products).map
              (mkDetail bo.nextQuotationId)).filter
          (fun d => d.quotationID == bo.nextQuotationId)).map
            (fun d => d.extendedPrice)).sum) = _
    rw [List.map_append, hold, List.map_cons, List.map_nil, hhd]

def C3_bo : BackOfficeDB :=
  ⟨["ProductUPC", "UnitPrice", "UnitCost"],
   [[("ProductUPC", Value.str "B1"), ("UnitPrice", Value.num 10),
     ("UnitCost", Value.num 6)]],
   [⟨7⟩], [], [], 1⟩

def C3_products : List PickListProduct := [⟨some "B1", "AAA", some 3⟩]

/-- Witness for C3 at the concrete scenario of the spec: one line with
barcode B1 and quantity 3 against a catalog entry at unit price 10 and unit
cost 6 — the conversion succeeds and one detail row per line is created. -/
theorem C3_witness :
    (create_quotation (some ⟨false⟩) [] C3_bo 1 C3_products 7 1 "PL").1 =
      ⟨true, some C3_bo.nextQuotationId,
        some (toString (get_next_quotation_number C3_bo)), none⟩ ∧
    ((matchedOf (boBuildMap C3_bo.items (barcodes_to_check C3_products) [])
      C3_products).map (mkDetail C3_bo.nextQuotationId)).length =
      C3_products.length :=
  ⟨(C3_theorem (some ⟨false⟩) [] C3_bo 1 C3_products 7 1 "PL" ⟨7⟩
      (boBuildMap C3_bo.items (barcodes_to_check C3_products) []) rfl
      (by
        intro p hp
        have hp2 : p = ⟨some "B1", "AAA", some 3⟩ := by
          simpa [C3_products] using hp
        subst hp2
        exact ⟨"B1", by decide, by decide⟩)
      (by decide) (by intro dd h; cases h) (by intro q h; cases h)).1,
   (C3_theorem (some ⟨false⟩) [] C3_bo 1 C3_products 7 1 "PL" ⟨7⟩
      (boBuildMap C3_bo.items (barcodes_to_check C3_products) []) rfl
      (by
        intro p hp
        have hp2 : p = ⟨some "B1", "AAA", some 3⟩ := by
          simpa [C3_products] using hp
        subst hp2
        exact ⟨"B1", by decide, by decide⟩)
      (by decide) (by intro dd h; cases h) (by intro q h; cases h)).2.2.1⟩
